import Mathlib

/- Verification development for the bookkeeping core of the `swedishh`
   foundation-management application.

   Embedded components (each definition is translated from the source):
   * `ValidationUtils.validateJournalEntry` (src/utils/validation.ts)
   * `financialAPI.createJournalEntry` / `updateJournalEntry`
     (src/components/financial/BookkeepingModule.tsx), modelled as pure
     state transformers over an explicit database state, with the fallible
     store operations (auth lookup, numbering RPC, row inserts) driven by an
     explicit environment of injected outcomes
   * the SQL functions `generate_entry_number` (max-based version from
     supabase/migrations/20250829154929_broad_fog.sql and count-based
     version from the base migration) and `create_default_accounts`
     (max-based migration version, 35 accounts)

   Amounts are modelled as rationals (the source stores fixed-point
   currency and compares with a 0.01 epsilon); machine floats are not
   modelled. JS falsiness of `item.account_id` covers both a missing id
   and an empty-string id. -/

/-! ## Decimal digit strings

Utilities mirroring `::text` casts, `LPAD(..., 6, '0')` (which pads on the
left and truncates on the right when the input is longer than the target
length, as PostgreSQL does) and the `[0-9]+` capture-and-cast used by the
SQL numbering functions. -/

/-- Character of a single decimal digit (codepoint 48 + d). -/
def digitChar (d : Nat) : Char := Char.ofNat (48 + d)

/-- Fuel-driven worker for the decimal representation (structural recursion
on the fuel, so that the kernel can evaluate it). -/
def natToDigitListAux : Nat → Nat → List Char
  | 0, _ => []
  | fuel + 1, n =>
    if n < 10 then [digitChar n]
    else natToDigitListAux fuel (n / 10) ++ [digitChar (n % 10)]

/-- Decimal representation of a natural number as a list of digit characters,
most significant digit first (the meaning of an SQL `::text` cast or a JS
template interpolation of a number). -/
def natToDigitList (n : Nat) : List Char := natToDigitListAux (n + 1) n

/-- The worker ignores the exact amount of fuel, as long as it exceeds the
number. -/
theorem natToDigitListAux_congr :
    ∀ (n f1 f2 : Nat), n < f1 → n < f2 →
      natToDigitListAux f1 n = natToDigitListAux f2 n := by
  intro n
  induction n using Nat.strong_induction_on with
  | _ n ih =>
    intro f1 f2 h1 h2
    obtain ⟨k1, rfl⟩ : ∃ k, f1 = k + 1 := ⟨f1 - 1, by omega⟩
    obtain ⟨k2, rfl⟩ : ∃ k, f2 = k + 1 := ⟨f2 - 1, by omega⟩
    simp only [natToDigitListAux]
    rcases Nat.lt_or_ge n 10 with h10 | h10
    · simp [h10]
    · rw [if_neg (by omega), if_neg (by omega)]
      have hdiv : n / 10 < n := Nat.div_lt_self (by omega) (by omega)
      congr 1
      exact ih (n / 10) hdiv k1 k2 (by omega) (by omega)

/-- Recurrence of the decimal representation. -/
theorem natToDigitList_unfold (n : Nat) :
    natToDigitList n =
      if n < 10 then [digitChar n]
      else natToDigitList (n / 10) ++ [digitChar (n % 10)] := by
  show natToDigitListAux (n + 1) n = _
  simp only [natToDigitListAux]
  rcases Nat.lt_or_ge n 10 with h10 | h10
  · simp [h10]
  · rw [if_neg (by omega), if_neg (by omega)]
    have hdiv : n / 10 < n := Nat.div_lt_self (by omega) (by omega)
    congr 1
    exact natToDigitListAux_congr (n / 10) n (n / 10 + 1) (by omega) (by omega)

/-- Decimal string of a natural number. -/
def natStr (n : Nat) : String := ⟨natToDigitList n⟩

/-- Numeric value of a digit character. -/
def charVal (c : Char) : Nat := c.toNat - 48

/-- Value of a digit string (the SQL `CAST(... AS integer)` of a captured
digit group). -/
def parseDigits (l : List Char) : Nat :=
  l.foldl (fun a c => 10 * a + charVal c) 0

/-- PostgreSQL `LPAD(s, n, '0')`: left-pad with zeros up to length `n`;
if `s` is longer than `n` it is truncated on the right to `n` characters. -/
def lpad (s : String) (n : Nat) : String :=
  if n ≤ s.data.length then ⟨s.data.take n⟩
  else ⟨List.replicate (n - s.data.length) '0' ++ s.data⟩

/-! ## Validation Engine (src/utils/validation.ts) -/

/-- A candidate journal-entry line item as assembled by the client.
Fields are `Option` exactly where the dynamic record in the source may be
missing them; `account_id = some ""` models a present-but-falsy empty id. -/
structure LineItem where
  account_id : Option String
  description : String
  debit_amount : Option ℚ
  credit_amount : Option ℚ
deriving DecidableEq

/-- The `(item.debit_amount || 0)` coercion of the source. -/
def debitOf (i : LineItem) : ℚ := i.debit_amount.getD 0

/-- The `(item.credit_amount || 0)` coercion of the source. -/
def creditOf (i : LineItem) : ℚ := i.credit_amount.getD 0

/-- JS truthiness of `item.account_id` (present and nonempty). -/
def hasAccount (i : LineItem) : Bool :=
  match i.account_id with
  | none => false
  | some s => s != ""

/-- Result record of the validators, `{ isValid, error? }`. -/
structure ValidationResult where
  isValid : Bool
  error : Option String
deriving DecidableEq

/-- Sum of debit amounts, as the source's
`reduce((sum, item) => sum + (item.debit_amount || 0), 0)`. -/
def totalDebits (items : List LineItem) : ℚ :=
  items.foldl (fun s i => s + debitOf i) 0

/-- Sum of credit amounts, as the source's
`reduce((sum, item) => sum + (item.credit_amount || 0), 0)`. -/
def totalCredits (items : List LineItem) : ℚ :=
  items.foldl (fun s i => s + creditOf i) 0

/-- The per-line `for` loop of `validateJournalEntry`, which returns on the
first line failing a check (both sides positive; neither side positive;
falsy account id). -/
def checkLineItems : List LineItem → ValidationResult
  | [] => ⟨true, none⟩
  | item :: rest =>
    if debitOf item > 0 ∧ creditOf item > 0 then
      ⟨false, some "Each line item must have either debit OR credit, not both"⟩
    else if ¬ debitOf item > 0 ∧ ¬ creditOf item > 0 then
      ⟨false, some "Each line item must have either debit or credit amount"⟩
    else if hasAccount item = false then
      ⟨false, some "All line items must have an account selected"⟩
    else checkLineItems rest

/-- `ValidationUtils.validateJournalEntry` (src/utils/validation.ts,
lines 175-206): at least 2 lines, then the 0.01-epsilon balance check,
then the per-line checks in input order. -/
def validateJournalEntry (lineItems : List LineItem) : ValidationResult :=
  if lineItems.length < 2 then
    ⟨false, some "Journal entry must have at least 2 line items"⟩
  else if |totalDebits lineItems - totalCredits lineItems| > 1/100 then
    ⟨false, some "Debits must equal credits"⟩
  else checkLineItems lineItems

/-- A line passing all three per-line checks of the loop. -/
def passesChecks (i : LineItem) : Prop :=
  ¬ (debitOf i > 0 ∧ creditOf i > 0) ∧ (debitOf i > 0 ∨ creditOf i > 0) ∧
    hasAccount i = true

/-! ### Claims C1, C7, C8 -/

/-- Helper: the per-line loop accepts a list of all-passing lines. -/
theorem checkLineItems_eq_valid (items : List LineItem)
    (h : ∀ i ∈ items, passesChecks i) : checkLineItems items = ⟨true, none⟩ := by
  induction items with
  | nil => rfl
  | cons a l ih =>
    obtain ⟨h1, h2, h3⟩ := h a (List.mem_cons_self a l)
    unfold checkLineItems
    rw [if_neg h1, if_neg (by tauto), if_neg (by simp [h3])]
    exact ih fun i hi => h i (List.mem_cons_of_mem a hi)

/-- Claim C1 (corrected), counterexample: a single unbalanced line has
|sum(debit) − sum(credit)| > 0.01 yet `validateJournalEntry` reports the
too-few-lines reason, not `Unbalanced` ("Debits must equal credits"). -/
theorem validateJournalEntry_unbalanced_cex :
    |totalDebits [⟨some "1010", "Cash", some 100, none⟩] -
      totalCredits [⟨some "1010", "Cash", some 100, none⟩]| > 1/100 ∧
    validateJournalEntry [⟨some "1010", "Cash", some 100, none⟩] =
      ⟨false, some "Journal entry must have at least 2 line items"⟩ ∧
    validateJournalEntry [⟨some "1010", "Cash", some 100, none⟩] ≠
      ⟨false, some "Debits must equal credits"⟩ := by
  refine ⟨?_, ?_, ?_⟩ <;>
    norm_num [validateJournalEntry, totalDebits, totalCredits, debitOf, creditOf] <;>
    decide

/-- Claim C1 (amended): for every line-item set with at least 2 lines where
the absolute difference between the sum of debit amounts and the sum of
credit amounts (missing fields counting as 0) exceeds 0.01,
`validateJournalEntry` returns invalid with reason "Debits must equal
credits". (The at-least-2-lines condition is forced: the length check
precedes the balance check in the source.) -/
theorem validateJournalEntry_unbalanced (items : List LineItem)
    (h2 : 2 ≤ items.length)
    (him : |totalDebits items - totalCredits items| > 1/100) :
    validateJournalEntry items = ⟨false, some "Debits must equal credits"⟩ := by
  unfold validateJournalEntry
  rw [if_neg (by omega), if_pos him]

/-- Witness for the amended C1 theorem at a concrete unbalanced two-line
input. -/
theorem validateJournalEntry_unbalanced_witness :
    validateJournalEntry
        [⟨some "1010", "Cash", some 100, none⟩,
         ⟨some "4010", "Revenue", none, some 50⟩] =
      ⟨false, some "Debits must equal credits"⟩ :=
  validateJournalEntry_unbalanced _ (by decide)
    (by norm_num [totalDebits, totalCredits, debitOf, creditOf])

/-- Claim C7 (confirmed): every line-item set with at least 2 lines, in
which every line has a (truthy) account reference and exactly one of
debit/credit strictly positive, and whose debit and credit sums are exactly
equal, validates as `isValid = true` with no error. -/
theorem validateJournalEntry_valid (items : List LineItem)
    (h2 : 2 ≤ items.length)
    (hline : ∀ i ∈ items, hasAccount i = true ∧
      ((debitOf i > 0 ∧ ¬ creditOf i > 0) ∨ (creditOf i > 0 ∧ ¬ debitOf i > 0)))
    (hbal : totalDebits items = totalCredits items) :
    validateJournalEntry items = ⟨true, none⟩ := by
  unfold validateJournalEntry
  rw [if_neg (by omega), if_neg (by rw [hbal, sub_self, abs_zero]; norm_num)]
  exact checkLineItems_eq_valid items fun i hi => by
    obtain ⟨ha, hone⟩ := hline i hi
    exact ⟨by tauto, by tauto, ha⟩

/-- Witness for the C7 theorem at a concrete balanced two-line input. -/
theorem validateJournalEntry_valid_witness :
    validateJournalEntry
        [⟨some "1010", "Cash", some 500, none⟩,
         ⟨some "4010", "Revenue", none, some 500⟩] = ⟨true, none⟩ :=
  validateJournalEntry_valid _ (by decide)
    (by
      intro i hi
      simp only [List.mem_cons, List.not_mem_nil, or_false] at hi
      rcases hi with rfl | rfl <;> exact ⟨by decide, by norm_num [debitOf, creditOf]⟩)
    (by norm_num [totalDebits, totalCredits, debitOf, creditOf])

/-- Claim C8 (corrected), counterexample: the claim's own instance, the
single-line input {debit:100, credit:100}, does not produce the MixedSides
reason; the length check fires first and reports too few lines. -/
theorem validateJournalEntry_mixed_cex :
    debitOf ⟨some "1010", "x", some 100, some 100⟩ > 0 ∧
    creditOf ⟨some "1010", "x", some 100, some 100⟩ > 0 ∧
    validateJournalEntry [⟨some "1010", "x", some 100, some 100⟩] =
      ⟨false, some "Journal entry must have at least 2 line items"⟩ ∧
    validateJournalEntry [⟨some "1010", "x", some 100, some 100⟩] ≠
      ⟨false, some "Each line item must have either debit OR credit, not both"⟩ := by
  refine ⟨?_, ?_, ?_, ?_⟩ <;>
    norm_num [validateJournalEntry, debitOf, creditOf] <;>
    decide

/-- Helper: the per-line loop reports MixedSides at the first both-sided
line when every earlier line passes all checks. -/
theorem checkLineItems_mixed (rest : List LineItem) (mixed : LineItem)
    (hd : debitOf mixed > 0) (hc : creditOf mixed > 0) :
    ∀ pre : List LineItem, (∀ i ∈ pre, passesChecks i) →
      checkLineItems (pre ++ mixed :: rest) =
        ⟨false, some "Each line item must have either debit OR credit, not both"⟩ := by
  intro pre
  induction pre with
  | nil =>
    intro _
    rw [List.nil_append]
    simp only [checkLineItems]
    rw [if_pos ⟨hd, hc⟩]
  | cons a l ih =>
    intro hpre
    obtain ⟨h1, h2, h3⟩ := hpre a (List.mem_cons_self a l)
    show checkLineItems (a :: (l ++ mixed :: rest)) = _
    simp only [checkLineItems]
    rw [if_neg h1, if_neg (by tauto), if_neg (by simp [h3])]
    exact ih fun i hi => hpre i (List.mem_cons_of_mem a hi)

/-- Claim C8 (amended): whenever a line-item set has at least 2 lines,
passes the balance check (|sum(debit) − sum(credit)| ≤ 0.01), and contains a
line with both debit and credit strictly positive such that every earlier
line passes all per-line checks, `validateJournalEntry` returns the
MixedSides reason. (The length and balance conditions are forced: both
checks precede the per-line loop, so a single-line input such as
{debit:100, credit:100} reports too few lines instead.) -/
theorem validateJournalEntry_mixed (pre rest : List LineItem) (mixed : LineItem)
    (h2 : 2 ≤ (pre ++ mixed :: rest).length)
    (hbal : |totalDebits (pre ++ mixed :: rest) -
      totalCredits (pre ++ mixed :: rest)| ≤ 1/100)
    (hpre : ∀ i ∈ pre, passesChecks i)
    (hd : debitOf mixed > 0) (hc : creditOf mixed > 0) :
    validateJournalEntry (pre ++ mixed :: rest) =
      ⟨false, some "Each line item must have either debit OR credit, not both"⟩ := by
  unfold validateJournalEntry
  rw [if_neg (by omega), if_neg (not_lt.mpr hbal)]
  exact checkLineItems_mixed rest mixed hd hc pre hpre

/-- Witness for the amended C8 theorem: a balanced three-line input whose
second line carries both sides. -/
theorem validateJournalEntry_mixed_witness :
    validateJournalEntry
        [⟨some "1010", "a", some 100, none⟩,
         ⟨some "2010", "b", some 50, some 50⟩,
         ⟨some "3010", "c", none, some 100⟩] =
      ⟨false, some "Each line item must have either debit OR credit, not both"⟩ :=
  validateJournalEntry_mixed [⟨some "1010", "a", some 100, none⟩]
    [⟨some "3010", "c", none, some 100⟩] ⟨some "2010", "b", some 50, some 50⟩
    (by decide)
    (by norm_num [totalDebits, totalCredits, debitOf, creditOf])
    (by
      intro i hi
      simp only [List.mem_cons, List.not_mem_nil, or_false] at hi
      subst hi
      refine ⟨by norm_num [debitOf, creditOf], ?_, by decide⟩
      norm_num [debitOf, creditOf])
    (by norm_num [debitOf]) (by norm_num [creditOf])

/-! ## Journal Posting Procedure (BookkeepingModule.tsx, financialAPI)

The procedure is modelled as a pure state transformer. The database state
carries the three tables the procedure can touch; the environment carries
the outcomes of the fallible external calls exactly where the source awaits
them: the auth lookup (`supabase.auth.getUser`), the numbering RPC (whose
error is discarded by the source, leaving `data` possibly null), the id the
store assigns to the inserted header, `Date.now()`, and the success or
failure (with the store's error message) of each insert statement. -/

/-- A row of the `journal_entries` table, with the columns written by
`createJournalEntry`. -/
structure EntryRow where
  id : Nat
  foundation_id : Nat
  entry_number : String
  entry_date : String
  description : String
  total_debit : ℚ
  total_credit : ℚ
  status : String
  created_by : Nat
  created_at : Nat
  updated_at : Nat
deriving DecidableEq

/-- A row of the `journal_entry_lines` table. -/
structure LineRow where
  journal_entry_id : Nat
  account_id : Option String
  description : String
  debit_amount : ℚ
  credit_amount : ℚ
  line_order : Nat
deriving DecidableEq

/-- A row of the `accounts` table (columns of the
20250829154929_broad_fog.sql bootstrap). -/
structure AccountRow where
  foundation_id : Nat
  account_number : String
  account_name : String
  account_type : String
  currency : String
  balance : ℚ
deriving DecidableEq

/-- The tables reachable from the posting procedure. -/
structure DBState where
  entries : List EntryRow
  lines : List LineRow
  accounts : List AccountRow
deriving DecidableEq

/-- The `entryData` argument of `createJournalEntry`. -/
structure EntryData where
  foundation_id : Nat
  entry_date : String
  description : String
  line_items : List LineItem
deriving DecidableEq

/-- Outcomes of the fallible external calls made by `createJournalEntry`,
in the order the source awaits them. -/
structure Env where
  user : Option Nat
  rpcResult : Option String
  newEntryId : Nat
  nowMs : Nat
  headerInsertOk : Bool
  headerErrMsg : String
  lineInsertOk : Bool
  lineErrMsg : String
deriving DecidableEq

/-- The `ApiResponse` of the source: success with the inserted row, or a
failure with a message. -/
inductive ApiResult where
  | ok (entry : EntryRow)
  | err (msg : String)
deriving DecidableEq

/-- `financialAPI.createJournalEntry` (BookkeepingModule.tsx, lines
1102-1168): auth check, numbering RPC (error discarded), totals, 0.01
balance check, header insert (status `draft`, entry number falling back to
`JE-${Date.now()}` when the RPC returned no value), line-item insert with
`line_order = index + 1`, and on line-item failure the compensating
`delete().eq('id', entry.id)` of the header before failing. -/
def createJournalEntry (env : Env) (s : DBState) (d : EntryData) :
    ApiResult × DBState :=
  match env.user with
  | none => (.err "Not authenticated", s)
  | some uid =>
    let totalDebit := totalDebits d.line_items
    let totalCredit := totalCredits d.line_items
    if |totalDebit - totalCredit| > 1/100 then
      (.err "Journal entry must be balanced (debits must equal credits)", s)
    else if env.headerInsertOk = false then
      (.err env.headerErrMsg, s)
    else
      let entry : EntryRow :=
        { id := env.newEntryId
          foundation_id := d.foundation_id
          entry_number := env.rpcResult.getD ("JE-" ++ natStr env.nowMs)
          entry_date := d.entry_date
          description := d.description
          total_debit := totalDebit
          total_credit := totalCredit
          status := "draft"
          created_by := uid
          created_at := env.nowMs
          updated_at := env.nowMs }
      let s1 : DBState := { s with entries := s.entries ++ [entry] }
      let lineRows : List LineRow := d.line_items.enum.map fun p =>
        { journal_entry_id := entry.id
          account_id := p.2.account_id
          description := p.2.description
          debit_amount := debitOf p.2
          credit_amount := creditOf p.2
          line_order := p.1 + 1 }
      if env.lineInsertOk = false then
        (.err env.lineErrMsg,
          { s1 with entries := s1.entries.filter fun e => e.id != env.newEntryId })
      else
        (.ok entry, { s1 with lines := s1.lines ++ lineRows })

/-- The `updates` record passed to `updateJournalEntry`: the spread
`...updates` overrides exactly the fields present. -/
structure EntryUpdates where
  entry_date : Option String
  description : Option String
  total_debit : Option ℚ
  total_credit : Option ℚ
  status : Option String
deriving DecidableEq

/-- Application of the `{...updates, updated_at: now}` spread to a row. -/
def applyUpdates (u : EntryUpdates) (nowMs : Nat) (e : EntryRow) : EntryRow :=
  { e with
    entry_date := u.entry_date.getD e.entry_date
    description := u.description.getD e.description
    total_debit := u.total_debit.getD e.total_debit
    total_credit := u.total_credit.getD e.total_credit
    status := u.status.getD e.status
    updated_at := nowMs }

/-- `financialAPI.updateJournalEntry` (BookkeepingModule.tsx, lines
1170-1190): updates the row matching `id` with the spread fields, with no
validation of any kind; `.single()` errors when no row matches. -/
def updateJournalEntry (nowMs : Nat) (id : Nat) (u : EntryUpdates)
    (s : DBState) : ApiResult × DBState :=
  let entries' := s.entries.map fun e => if e.id = id then applyUpdates u nowMs e else e
  match entries'.find? fun e => e.id == id with
  | none => (.err "no rows returned", s)
  | some e => (.ok e, { s with entries := entries' })

/-! ### Claims C2, C5, C6 -/

/-- Claim C2 (confirmed): whenever a posting request reaches a successful
header insert (authenticated, balanced, header insert succeeds) and the
subsequent line-items insert fails, `createJournalEntry` returns a failure
and afterwards no row for the new entry id exists in either the entry table
or the line table — the compensating delete removes the header it inserted.
The freshness hypothesis on the store-assigned id reflects the uniqueness
of database-generated primary keys. -/
theorem createJournalEntry_no_orphan (env : Env) (s : DBState) (d : EntryData)
    (hu : env.user.isSome = true)
    (hbal : |totalDebits d.line_items - totalCredits d.line_items| ≤ 1/100)
    (hhdr : env.headerInsertOk = true)
    (hline : env.lineInsertOk = false)
    (hfresh : ∀ l ∈ s.lines, l.journal_entry_id ≠ env.newEntryId) :
    (createJournalEntry env s d).1 = .err env.lineErrMsg ∧
    (createJournalEntry env s d).2.entries.filter
      (fun e => e.id == env.newEntryId) = [] ∧
    (createJournalEntry env s d).2.lines.filter
      (fun l => l.journal_entry_id == env.newEntryId) = [] := by
  obtain ⟨uid, huid⟩ := Option.isSome_iff_exists.mp hu
  simp only [createJournalEntry, huid, not_lt.mpr hbal, if_neg, hhdr, hline,
    Bool.true_eq_false, if_false, if_pos, if_neg (by simp : ¬ (True = False))]
  refine ⟨trivial, ?_, ?_⟩
  · rw [List.filter_filter]
    apply List.filter_eq_nil_iff.mpr
    intro a _
    simp
  · apply List.filter_eq_nil_iff.mpr
    intro a ha
    simpa using hfresh a ha

/-- Concrete environment where every store call succeeds except the
line-items insert. -/
def envLineFail : Env :=
  ⟨some 7, some "JE-2025-000001", 1, 1000, true, "header failed", false,
    "line insert failed"⟩

/-- Concrete balanced two-line posting request. -/
def dataBalanced : EntryData :=
  ⟨1, "2025-01-02", "donation",
    [⟨some "1010", "cash", some 100, none⟩,
     ⟨some "4010", "revenue", none, some 100⟩]⟩

/-- Empty database state. -/
def stateEmpty : DBState := ⟨[], [], []⟩

/-- Witness for the C2 theorem at a concrete injected line-insert failure. -/
theorem createJournalEntry_no_orphan_witness :
    (createJournalEntry envLineFail stateEmpty dataBalanced).1 =
      .err "line insert failed" ∧
    (createJournalEntry envLineFail stateEmpty dataBalanced).2.entries.filter
      (fun e => e.id == 1) = [] ∧
    (createJournalEntry envLineFail stateEmpty dataBalanced).2.lines.filter
      (fun l => l.journal_entry_id == 1) = [] :=
  createJournalEntry_no_orphan envLineFail stateEmpty dataBalanced rfl
    (by norm_num [dataBalanced, totalDebits, totalCredits, debitOf, creditOf])
    rfl rfl (by simp [stateEmpty])

/-- Claim C5 (confirmed): `createJournalEntry` never modifies the accounts
table — on every path, success or failure, the accounts state is returned
unchanged — and on success the created entry is persisted with status
`draft`. -/
theorem createJournalEntry_frame (env : Env) (s : DBState) (d : EntryData) :
    (createJournalEntry env s d).2.accounts = s.accounts ∧
    ∀ e, (createJournalEntry env s d).1 = .ok e →
      e ∈ (createJournalEntry env s d).2.entries ∧ e.status = "draft" := by
  cases huid : env.user with
  | none => simp [createJournalEntry, huid]
  | some uid =>
    simp only [createJournalEntry, huid]
    split_ifs with h1 h2 h3
    · exact ⟨rfl, by intro e h; exact absurd h (by simp)⟩
    · exact ⟨rfl, by intro e h; exact absurd h (by simp)⟩
    · exact ⟨rfl, by intro e h; exact absurd h (by simp)⟩
    · refine ⟨rfl, ?_⟩
      intro e h
      obtain rfl : _ = e := by injection h
      exact ⟨List.mem_append_right _ (by simp), rfl⟩

/-- Concrete environment where every store call succeeds. -/
def envAllOk : Env :=
  ⟨some 7, some "JE-2025-000001", 1, 1000, true, "header failed", true,
    "line insert failed"⟩

/-- Witness for the C5 theorem: a concrete successful run leaves accounts
unchanged and persists the draft entry. -/
theorem createJournalEntry_frame_witness :
    (createJournalEntry envAllOk stateEmpty dataBalanced).2.accounts =
      stateEmpty.accounts ∧
    (⟨1, 1, "JE-2025-000001", "2025-01-02", "donation", 100, 100, "draft", 7,
        1000, 1000⟩ : EntryRow) ∈
      (createJournalEntry envAllOk stateEmpty dataBalanced).2.entries ∧
    (⟨1, 1, "JE-2025-000001", "2025-01-02", "donation", 100, 100, "draft", 7,
        1000, 1000⟩ : EntryRow).status = "draft" :=
  ⟨(createJournalEntry_frame envAllOk stateEmpty dataBalanced).1,
   (createJournalEntry_frame envAllOk stateEmpty dataBalanced).2 _
     (by
       norm_num [createJournalEntry, envAllOk, dataBalanced, stateEmpty,
         totalDebits, totalCredits, debitOf, creditOf])⟩

/-- Field updates that overwrite the totals with unbalanced values. -/
def unbalancedUpdates : EntryUpdates := ⟨none, none, some 100, some 0, none⟩

/-- Claim C6 (corrected), counterexample: starting from the empty state, a
successful `createJournalEntry` followed by an `updateJournalEntry` that
overwrites the totals reaches a persisted entry with
|total_debit − total_credit| > 0.01 — `updateJournalEntry` applies the
spread updates without any balance validation. -/
theorem journalEntry_balance_invariant_cex :
    (⟨1, 1, "JE-2025-000001", "2025-01-02", "donation", 100, 0, "draft", 7,
      1000, 2000⟩ : EntryRow) ∈
      (updateJournalEntry 2000 1 unbalancedUpdates
        (createJournalEntry envAllOk stateEmpty dataBalanced).2).2.entries ∧
    |(⟨1, 1, "JE-2025-000001", "2025-01-02", "donation", 100, 0, "draft", 7,
      1000, 2000⟩ : EntryRow).total_debit -
      (⟨1, 1, "JE-2025-000001", "2025-01-02", "donation", 100, 0, "draft", 7,
        1000, 2000⟩ : EntryRow).total_credit| > 1/100 := by
  have hcreate : (createJournalEntry envAllOk stateEmpty dataBalanced).2.entries =
      [⟨1, 1, "JE-2025-000001", "2025-01-02", "donation", 100, 100, "draft", 7,
        1000, 1000⟩] := by
    norm_num [createJournalEntry, envAllOk, dataBalanced, stateEmpty,
      totalDebits, totalCredits, debitOf, creditOf]
  have hupd : (updateJournalEntry 2000 1 unbalancedUpdates
        (createJournalEntry envAllOk stateEmpty dataBalanced).2).2.entries =
      [⟨1, 1, "JE-2025-000001", "2025-01-02", "donation", 100, 0, "draft", 7,
        1000, 2000⟩] := by
    simp [updateJournalEntry, hcreate, applyUpdates, unbalancedUpdates]
  rw [hupd]
  refine ⟨by simp, by norm_num⟩

/-- Claim C6 (amended): `createJournalEntry` alone preserves the balance
invariant — if every persisted entry satisfies
|total_debit − total_credit| ≤ 0.01 beforehand, the same holds after any
run of the procedure (it rejects unbalanced input before writing, and the
entry it writes carries the checked totals). `updateJournalEntry` performs
no such validation, so the at-all-times invariant over both operations
fails (see the counterexample). -/
theorem createJournalEntry_preserves_balance (env : Env) (s : DBState)
    (d : EntryData)
    (hinv : ∀ e ∈ s.entries, |e.total_debit - e.total_credit| ≤ 1/100) :
    ∀ e ∈ (createJournalEntry env s d).2.entries,
      |e.total_debit - e.total_credit| ≤ 1/100 := by
  cases huid : env.user with
  | none => simpa [createJournalEntry, huid] using hinv
  | some uid =>
    simp only [createJournalEntry, huid]
    split_ifs with h1 h2 h3
    · exact hinv
    · exact hinv
    · intro e he
      rcases List.mem_append.mp (List.mem_of_mem_filter he) with hs | hnew
      · exact hinv e hs
      · simp only [List.mem_singleton] at hnew
        subst hnew
        exact not_lt.mp h1
    · intro e he
      rcases List.mem_append.mp he with hs | hnew
      · exact hinv e hs
      · simp only [List.mem_singleton] at hnew
        subst hnew
        exact not_lt.mp h1

/-- Witness for the amended C6 theorem: the entry persisted by a concrete
successful run is balanced. -/
theorem createJournalEntry_preserves_balance_witness :
    |(⟨1, 1, "JE-2025-000001", "2025-01-02", "donation", 100, 100, "draft", 7,
        1000, 1000⟩ : EntryRow).total_debit -
      (⟨1, 1, "JE-2025-000001", "2025-01-02", "donation", 100, 100, "draft", 7,
        1000, 1000⟩ : EntryRow).total_credit| ≤ 1/100 :=
  createJournalEntry_preserves_balance envAllOk stateEmpty dataBalanced
    (by simp [stateEmpty]) _
    (by
      norm_num [createJournalEntry, envAllOk, dataBalanced, stateEmpty,
        totalDebits, totalCredits, debitOf, creditOf])

/-! ## Entry Numbering Service (SQL migrations)

Properties of the decimal-digit utilities, then the two
`generate_entry_number` implementations. -/

/-- Digit characters produced by `digitChar` are decimal digits. -/
theorem digitChar_isDigit {d : Nat} (h : d < 10) :
    (digitChar d).isDigit = true := by
  interval_cases d <;> decide

/-- Parsing inverts a single digit character. -/
theorem charVal_digitChar {d : Nat} (h : d < 10) : charVal (digitChar d) = d := by
  interval_cases d <;> decide

/-- A decimal representation is never empty. -/
theorem natToDigitList_ne_nil (n : Nat) : natToDigitList n ≠ [] := by
  rw [natToDigitList_unfold]
  split <;> simp

/-- Every character of a decimal representation is a digit. -/
theorem natToDigitList_all_digit (n : Nat) :
    ∀ c ∈ natToDigitList n, c.isDigit = true := by
  induction n using Nat.strong_induction_on with
  | _ n ih =>
    rw [natToDigitList_unfold]
    split
    · next h => simp [digitChar_isDigit h]
    · next h =>
      rw [not_lt] at h
      intro c hc
      rcases List.mem_append.mp hc with hc | hc
      · exact ih (n / 10) (Nat.div_lt_self (by omega) (by omega)) c hc
      · simp only [List.mem_singleton] at hc
        subst hc
        exact digitChar_isDigit (Nat.mod_lt _ (by omega))

/-- Closed form of the digit-parsing fold for an arbitrary accumulator. -/
theorem parseDigits_foldl (l : List Char) (a : Nat) :
    l.foldl (fun x c => 10 * x + charVal c) a =
      a * 10 ^ l.length + parseDigits l := by
  induction l generalizing a with
  | nil => simp [parseDigits]
  | cons c t ih =>
    simp only [List.foldl_cons, List.length_cons, parseDigits]
    rw [ih (10 * a + charVal c), ih (10 * 0 + charVal c)]
    ring

/-- Parsing splits over list concatenation positionally. -/
theorem parseDigits_append (l m : List Char) :
    parseDigits (l ++ m) = parseDigits l * 10 ^ m.length + parseDigits m := by
  unfold parseDigits
  rw [List.foldl_append]
  exact parseDigits_foldl m _

/-- Leading zeros do not change the parsed value. -/
theorem parseDigits_replicate_zero (k : Nat) :
    parseDigits (List.replicate k '0') = 0 := by
  induction k with
  | zero => rfl
  | succ k ih =>
    rw [List.replicate_succ', parseDigits_append, ih]
    decide

/-- Parsing inverts the decimal representation. -/
theorem parseDigits_natToDigitList (n : Nat) :
    parseDigits (natToDigitList n) = n := by
  induction n using Nat.strong_induction_on with
  | _ n ih =>
    rw [natToDigitList_unfold]
    split
    · next h =>
      show parseDigits [digitChar n] = n
      simp [parseDigits, charVal_digitChar h]
    · next h =>
      rw [not_lt] at h
      rw [parseDigits_append,
        ih (n / 10) (Nat.div_lt_self (by omega) (by omega))]
      have := charVal_digitChar (Nat.mod_lt n (show 0 < 10 by omega))
      simp only [List.length_singleton, parseDigits, List.foldl_cons,
        List.foldl_nil, this]
      omega

/-- A number below `10 ^ k` has at most `k` digits (for `k ≥ 1`). -/
theorem natToDigitList_length_le {n k : Nat} (hk : 1 ≤ k) (h : n < 10 ^ k) :
    (natToDigitList n).length ≤ k := by
  induction k generalizing n with
  | zero => omega
  | succ k ih =>
    rw [natToDigitList_unfold]
    split
    · next => simp
    · next hlt =>
      rw [not_lt] at hlt
      have hk1 : 1 ≤ k := by
        rcases Nat.eq_zero_or_pos k with rfl | hpos
        · simp at h; omega
        · exact hpos
      have hdiv : n / 10 < 10 ^ k := by
        rw [Nat.div_lt_iff_lt_mul (by omega)]
        calc n < 10 ^ (k + 1) := h
        _ = 10 ^ k * 10 := by rw [pow_succ]
      have := ih hk1 hdiv
      rw [List.length_append]
      simp only [List.length_singleton]
      omega

/-- A number at least `10 ^ k` has more than `k` digits. -/
theorem natToDigitList_length_ge {k : Nat} :
    ∀ {n : Nat}, 10 ^ k ≤ n → k + 1 ≤ (natToDigitList n).length := by
  induction k with
  | zero =>
    intro n _
    have := List.length_pos.mpr (natToDigitList_ne_nil n)
    omega
  | succ k ih =>
    intro n h
    have h10 : (10 : Nat) ≤ 10 ^ (k + 1) := by
      calc (10 : Nat) = 10 ^ 1 := (pow_one 10).symm
      _ ≤ 10 ^ (k + 1) := Nat.pow_le_pow_right (by omega) (by omega)
    rw [natToDigitList_unfold]
    split
    · next hlt => omega
    · next hlt =>
      have hdiv : 10 ^ k ≤ n / 10 := by
        rw [Nat.le_div_iff_mul_le (by omega)]
        calc 10 ^ k * 10 = 10 ^ (k + 1) := (pow_succ 10 k).symm
        _ ≤ n := h
      have := ih hdiv
      rw [List.length_append]
      simp only [List.length_singleton]
      omega

/-- String concatenation concatenates the underlying character lists. -/
theorem string_data_append (s t : String) : (s ++ t).data = s.data ++ t.data := by
  cases s
  cases t
  rfl

/-- Match of an entry number against the pattern
`^JE-<yearPart>-[0-9]+$` with the digit group parsed as an integer (the
`CASE WHEN entry_number ~ ... THEN CAST(SUBSTRING(...) AS integer)` of the
max-based SQL function). -/
def matchJE (yearPart : String) (s : String) : Option Nat :=
  let p := ("JE-" ++ yearPart ++ "-").data
  let l := s.data
  if l.take p.length = p ∧ l.drop p.length ≠ [] ∧
      ∀ c ∈ l.drop p.length, c.isDigit = true
  then some (parseDigits (l.drop p.length))
  else none

/-- A row of the `journal_entries` table as seen by the numbering
functions: owning foundation, entry number, and the year of `created_at`. -/
structure JERow where
  foundation_id : Nat
  entry_number : String
  created_year : Nat
deriving DecidableEq

/-- The `COALESCE(MAX(CASE ... ELSE 0 END), 0)` aggregate of the max-based
function over the foundation's rows. -/
def maxMatching (db : List JERow) (fid : Nat) (yearPart : String) : Nat :=
  (db.filter fun r => r.foundation_id == fid).foldl
    (fun m r => max m ((matchJE yearPart r.entry_number).getD 0)) 0

/-- Max-based `generate_entry_number`
(supabase/migrations/20250829154929_broad_fog.sql, lines 67-90): next
sequence is one plus the largest sequence among the foundation's entry
numbers matching `JE-<year>-[0-9]+`, zero-padded with `LPAD(..., 6, '0')`. -/
def generate_entry_number_max (db : List JERow) (fid year : Nat) : String :=
  let yearPart := natStr year
  let next := maxMatching db fid yearPart + 1
  "JE-" ++ yearPart ++ "-" ++ lpad (natStr next) 6

/-- Count-based `generate_entry_number` (base migration, src/unnamed/part_002
lines 294-309): next sequence is one plus the number of the foundation's
entries created in the current year. -/
def generate_entry_number_count (db : List JERow) (fid year : Nat) : String :=
  let yearPart := natStr year
  let cnt := (db.filter fun r =>
    r.foundation_id == fid && r.created_year == year).length
  "JE-" ++ yearPart ++ "-" ++ lpad (natStr (cnt + 1)) 6

/-- Inserting a journal entry numbered by the count-based function. -/
def insertEntryCount (db : List JERow) (fid year : Nat) : List JERow :=
  db ++ [⟨fid, generate_entry_number_count db fid year, year⟩]

/-- The padded digit group of a generated number: for a sequence of at most
six digits, `LPAD` prepends zeros up to length six. -/
theorem lpad_natStr_eq (n : Nat) (h : (natToDigitList n).length ≤ 6) :
    (lpad (natStr n) 6).data =
      List.replicate (6 - (natToDigitList n).length) '0' ++ natToDigitList n := by
  unfold lpad natStr
  rcases Nat.lt_or_ge (natToDigitList n).length 6 with hlt | hge
  · rw [if_neg (by simpa using hlt)]
  · have h6 : (natToDigitList n).length = 6 := by omega
    rw [if_pos (by simpa using hge)]
    simp [h6, List.take_of_length_le (le_of_eq h6)]

/-- Every generated number matches its own pattern and parses back to the
next sequence, provided the sequence stays within six digits. -/
theorem matchJE_generate (db : List JERow) (fid year : Nat)
    (h : maxMatching db fid (natStr year) + 1 < 10 ^ 6) :
    matchJE (natStr year) (generate_entry_number_max db fid year) =
      some (maxMatching db fid (natStr year) + 1) := by
  set next := maxMatching db fid (natStr year) + 1 with hnext
  have hlen : (natToDigitList next).length ≤ 6 :=
    natToDigitList_length_le (by omega) h
  have hdata : (generate_entry_number_max db fid year).data =
      ("JE-" ++ natStr year ++ "-").data ++
        (List.replicate (6 - (natToDigitList next).length) '0' ++
          natToDigitList next) := by
    show ("JE-" ++ natStr year ++ "-" ++ lpad (natStr next) 6).data = _
    rw [string_data_append, lpad_natStr_eq next hlen]
  unfold matchJE
  simp only [hdata, List.take_left, List.drop_left]
  rw [if_pos]
  · rw [parseDigits_append, parseDigits_replicate_zero,
      parseDigits_natToDigitList]
    simp
  · refine ⟨trivial, ?_, ?_⟩
    · simp [natToDigitList_ne_nil next]
    · intro c hc
      rcases List.mem_append.mp hc with hc | hc
      · rw [List.eq_of_mem_replicate hc]; decide
      · exact natToDigitList_all_digit next c hc

/-- The initial accumulator bounds a max-fold from below. -/
theorem foldl_max_init_le {α : Type} (l : List α) (f : α → Nat) (a : Nat) :
    a ≤ l.foldl (fun m x => max m (f x)) a := by
  induction l generalizing a with
  | nil => exact le_refl a
  | cons x t ih =>
    simp only [List.foldl_cons]
    exact le_trans (le_max_left a (f x)) (ih (max a (f x)))

/-- Every listed value bounds a max-fold from below. -/
theorem foldl_max_le_of_mem {α : Type} (f : α → Nat) (x : α) :
    ∀ (l : List α), x ∈ l → ∀ (a : Nat),
      f x ≤ l.foldl (fun m y => max m (f y)) a := by
  intro l
  induction l with
  | nil => intro h; cases h
  | cons y t ih =>
    intro hx a
    simp only [List.foldl_cons]
    rcases List.mem_cons.mp hx with rfl | hx
    · exact le_trans (le_max_right a (f x)) (foldl_max_init_le t f _)
    · exact ih hx _

/-- A max-fold is either its initial accumulator or one of the listed
values. -/
theorem foldl_max_cases {α : Type} (l : List α) (f : α → Nat) (a : Nat) :
    l.foldl (fun m x => max m (f x)) a = a ∨
      ∃ x ∈ l, l.foldl (fun m x => max m (f x)) a = f x := by
  induction l generalizing a with
  | nil => exact Or.inl rfl
  | cons y t ih =>
    simp only [List.foldl_cons]
    rcases ih (max a (f y)) with h | ⟨x, hx, h⟩
    · rcases Nat.le_total (f y) a with hy | hy
      · exact Or.inl (by rw [h]; exact max_eq_left hy)
      · exact Or.inr ⟨y, List.mem_cons_self y t, by rw [h]; exact max_eq_right hy⟩
    · exact Or.inr ⟨x, List.mem_cons_of_mem y hx, h⟩

/-- A common upper bound of the accumulator and all values bounds the
fold. -/
theorem foldl_max_le {α : Type} (l : List α) (f : α → Nat) (a B : Nat)
    (ha : a ≤ B) (hB : ∀ x ∈ l, f x ≤ B) :
    l.foldl (fun m x => max m (f x)) a ≤ B := by
  rcases foldl_max_cases l f a with h | ⟨x, hx, h⟩
  · rw [h]; exact ha
  · rw [h]; exact hB x hx

/-- Specification-style characterisation of the aggregate computed by the
max-based function: `M` is matched by some row of the foundation (or is 0),
and bounds every row's matched sequence (a non-matching row contributing
0, as the SQL `CASE ... ELSE 0` does). -/
def IsMaxMatching (db : List JERow) (fid : Nat) (yearPart : String)
    (M : Nat) : Prop :=
  (M = 0 ∨ ∃ r ∈ db, r.foundation_id = fid ∧
      (matchJE yearPart r.entry_number).getD 0 = M) ∧
  ∀ r ∈ db, r.foundation_id = fid →
    (matchJE yearPart r.entry_number).getD 0 ≤ M

/-- The SQL aggregate computes exactly the characterised maximum. -/
theorem maxMatching_eq {db : List JERow} {fid : Nat} {yearPart : String}
    {M : Nat} (h : IsMaxMatching db fid yearPart M) :
    maxMatching db fid yearPart = M := by
  obtain ⟨hat, hub⟩ := h
  apply le_antisymm
  · apply foldl_max_le
    · omega
    · intro r hr
      rw [List.mem_filter] at hr
      exact hub r hr.1 (beq_iff_eq.mp hr.2)
  · rcases hat with rfl | ⟨r, hr, hfid, hv⟩
    · omega
    · rw [← hv]
      have hmem : r ∈ db.filter (fun r => r.foundation_id == fid) :=
        List.mem_filter.mpr ⟨hr, by simp [hfid]⟩
      exact foldl_max_le_of_mem
        (fun r => (matchJE yearPart r.entry_number).getD 0) r _ hmem 0

/-- Claim C3 (confirmed): for every database state, foundation and current
year, the max-based `generate_entry_number` returns
`"JE-" ++ year ++ "-" ++ S` with `S` the next sequence zero-padded to 6
digits (`LPAD(..., 6, '0')`), where the next sequence is one plus the
maximum sequence among the foundation's entry numbers matching
`JE-<year>-[0-9]+` (0 when none); in particular, when no entry of the
foundation matches the current year's pattern — e.g. the first entry of a
new year — the result is `"JE-" ++ year ++ "-000001"`. -/
theorem generate_entry_number_max_spec (db : List JERow) (fid year M : Nat)
    (h : IsMaxMatching db fid (natStr year) M) :
    generate_entry_number_max db fid year =
      "JE-" ++ natStr year ++ "-" ++ lpad (natStr (M + 1)) 6 ∧
    ((∀ r ∈ db, r.foundation_id = fid →
        matchJE (natStr year) r.entry_number = none) →
      generate_entry_number_max db fid year =
        "JE-" ++ natStr year ++ "-" ++ "000001") := by
  have hM : maxMatching db fid (natStr year) = M := maxMatching_eq h
  constructor
  · show "JE-" ++ natStr year ++ "-" ++
      lpad (natStr (maxMatching db fid (natStr year) + 1)) 6 = _
    rw [hM]
  · intro hnone
    have h0 : maxMatching db fid (natStr year) = 0 := by
      apply Nat.le_antisymm
      · apply foldl_max_le
        · omega
        · intro r hr
          rw [List.mem_filter] at hr
          rw [hnone r hr.1 (by simpa using hr.2)]
          simp
      · omega
    show "JE-" ++ natStr year ++ "-" ++
      lpad (natStr (maxMatching db fid (natStr year) + 1)) 6 = _
    rw [h0]
    have : lpad (natStr (0 + 1)) 6 = "000001" := by decide
    rw [this]

instance (db : List JERow) (fid : Nat) (yearPart : String) (M : Nat) :
    Decidable (IsMaxMatching db fid yearPart M) := by
  unfold IsMaxMatching
  infer_instance

/-- Witness for the C3 theorem: a foundation with matching sequences 7 and
123 (the latter for an earlier year) and a foreign row receives sequence 8,
and a year with no matching rows receives sequence 1. -/
theorem generate_entry_number_max_spec_witness :
    generate_entry_number_max
        [⟨1, "JE-2025-000007", 2025⟩, ⟨1, "JE-2024-000123", 2024⟩,
         ⟨2, "JE-2025-000099", 2025⟩] 1 2025 = "JE-2025-000008" ∧
    generate_entry_number_max [⟨1, "JE-2024-000123", 2024⟩] 1 2025 =
      "JE-2025-000001" := by
  constructor
  · have h := (generate_entry_number_max_spec
      [⟨1, "JE-2025-000007", 2025⟩, ⟨1, "JE-2024-000123", 2024⟩,
       ⟨2, "JE-2025-000099", 2025⟩] 1 2025 7 (by decide)).1
    rw [h]
    decide
  · have h := (generate_entry_number_max_spec [⟨1, "JE-2024-000123", 2024⟩]
      1 2025 0 (by decide)).2 (by decide)
    rw [h]
    decide

/-- Claim C4 (corrected), counterexample to the universal freshness of the
max-based version: `LPAD(..., 6, '0')` truncates a seven-digit next
sequence, so in a state holding sequences 100000 and 1000000 the generated
number collides with the existing entry `JE-2025-100000`. -/
theorem generate_entry_number_max_collision_cex :
    generate_entry_number_max
        [⟨1, "JE-2025-100000", 2025⟩, ⟨1, "JE-2025-1000000", 2025⟩] 1 2025 =
      "JE-2025-100000" ∧
    (⟨1, "JE-2025-100000", 2025⟩ : JERow) ∈
      [⟨1, "JE-2025-100000", 2025⟩, ⟨1, "JE-2025-1000000", 2025⟩] := by
  decide

/-- Claim C4 (amended): the two `generate_entry_number` implementations are
not equivalent. For every database state in which each matching sequence of
the foundation is at most 999998 (the bound forced by the six-character
LPAD truncation of the counterexample), the max-based version returns an
entry number distinct from every existing entry number of that foundation;
whereas for the state reached by inserting two entries and deleting the
first, the count-based version returns an entry number equal to the
remaining (undeleted) entry's number. -/
theorem generate_entry_number_implementations_differ :
    (∀ (db : List JERow) (fid year : Nat),
      (∀ r ∈ db, r.foundation_id = fid →
        (matchJE (natStr year) r.entry_number).getD 0 ≤ 999998) →
      ∀ r ∈ db, r.foundation_id = fid →
        generate_entry_number_max db fid year ≠ r.entry_number) ∧
    (generate_entry_number_count
        ((insertEntryCount (insertEntryCount [] 1 2025) 1 2025).eraseIdx 0)
        1 2025 = "JE-2025-000002" ∧
      (⟨1, "JE-2025-000002", 2025⟩ : JERow) ∈
        (insertEntryCount (insertEntryCount [] 1 2025) 1 2025).eraseIdx 0) := by
  constructor
  · intro db fid year hbound r hr hfid heq
    have hmax : maxMatching db fid (natStr year) ≤ 999998 := by
      apply foldl_max_le
      · omega
      · intro x hx
        rw [List.mem_filter] at hx
        exact hbound x hx.1 (beq_iff_eq.mp hx.2)
    have hgen := matchJE_generate db fid year
      (by
        calc maxMatching db fid (natStr year) + 1 ≤ 999999 := by omega
        _ < 10 ^ 6 := by norm_num)
    rw [heq] at hgen
    have hub : (matchJE (natStr year) r.entry_number).getD 0 ≤
        maxMatching db fid (natStr year) := by
      have hmem : r ∈ db.filter (fun r => r.foundation_id == fid) :=
        List.mem_filter.mpr ⟨hr, by simp [hfid]⟩
      exact foldl_max_le_of_mem
        (fun x => (matchJE (natStr year) x.entry_number).getD 0) r _ hmem 0
    rw [hgen] at hub
    simp only [Option.getD_some] at hub
    omega
  · decide

/-- Witness for the freshness half of the amended C4 theorem: a concrete
in-range state receives a number distinct from its existing entry. -/
theorem generate_entry_number_implementations_differ_witness :
    generate_entry_number_max [⟨1, "JE-2025-000007", 2025⟩] 1 2025 ≠
      "JE-2025-000007" :=
  generate_entry_number_implementations_differ.1
    [⟨1, "JE-2025-000007", 2025⟩] 1 2025 (by decide)
    ⟨1, "JE-2025-000007", 2025⟩ (by decide) rfl

/-- The wire/storage entry-number contract `JE-YYYY-NNNNNN`: literal
`JE-`, four digits, dash, six digits. -/
def JEFormat (s : String) : Prop :=
  s.data.length = 14 ∧
  s.data.take 3 = ['J', 'E', '-'] ∧
  (∀ c ∈ (s.data.drop 3).take 4, c.isDigit = true) ∧
  (s.data.drop 7).take 1 = ['-'] ∧
  ∀ c ∈ s.data.drop 8, c.isDigit = true

instance (s : String) : Decidable (JEFormat s) := by
  unfold JEFormat
  infer_instance

/-- The padded digit group always has exactly six characters. -/
theorem lpad_natStr_length (n : Nat) : (lpad (natStr n) 6).data.length = 6 := by
  unfold lpad natStr
  split
  · next h =>
    dsimp only at h ⊢
    simp only [List.length_take]
    omega
  · next h =>
    dsimp only at h ⊢
    simp only [List.length_append, List.length_replicate]
    omega

/-- The padded digit group consists of digits only. -/
theorem lpad_natStr_digits (n : Nat) :
    ∀ c ∈ (lpad (natStr n) 6).data, c.isDigit = true := by
  unfold lpad natStr
  split
  · intro c hc
    exact natToDigitList_all_digit n c (List.take_subset _ _ hc)
  · intro c hc
    rcases List.mem_append.mp hc with hc | hc
    · rw [List.eq_of_mem_replicate hc]; decide
    · exact natToDigitList_all_digit n c hc

/-- A four-digit year has a four-character decimal representation. -/
theorem natToDigitList_year_length {y : Nat} (h1 : 1000 ≤ y) (h2 : y ≤ 9999) :
    (natToDigitList y).length = 4 := by
  have hp4 : (10 : Nat) ^ 4 = 10000 := by norm_num
  have hp3 : (10 : Nat) ^ 3 = 1000 := by norm_num
  have hle := natToDigitList_length_le (show 1 ≤ 4 by omega)
    (show y < 10 ^ 4 by omega)
  have hge := natToDigitList_length_ge (show 10 ^ 3 ≤ y by omega)
  omega

/-- Every number produced by the max-based generator for a four-digit year
satisfies the `JE-YYYY-NNNNNN` contract (the padded group has exactly six
digit characters whether LPAD pads or truncates). -/
theorem generate_entry_number_max_format (db : List JERow) (fid year : Nat)
    (h1 : 1000 ≤ year) (h2 : year ≤ 9999) :
    JEFormat (generate_entry_number_max db fid year) := by
  set pd := (lpad (natStr (maxMatching db fid (natStr year) + 1)) 6).data with hpd
  have hpdl : pd.length = 6 := lpad_natStr_length _
  have hpdd : ∀ c ∈ pd, c.isDigit = true := lpad_natStr_digits _
  have hyl : (natToDigitList year).length = 4 := natToDigitList_year_length h1 h2
  have hyd := natToDigitList_all_digit year
  have hdata : (generate_entry_number_max db fid year).data =
      ['J', 'E', '-'] ++ (natToDigitList year ++ (['-'] ++ pd)) := by
    show ("JE-" ++ natStr year ++ "-" ++
      lpad (natStr (maxMatching db fid (natStr year) + 1)) 6).data = _
    rw [string_data_append, string_data_append, string_data_append]
    simp only [List.append_assoc]
    rfl
  refine ⟨?_, ?_, ?_, ?_, ?_⟩
  · rw [hdata]
    simp [hyl, hpdl]
  · rw [hdata]
    exact List.take_left' rfl
  · rw [hdata, List.drop_left' (show (['J', 'E', '-'] : List Char).length = 3 from rfl),
      List.take_left' hyl]
    exact fun c hc => hyd c hc
  · rw [hdata, show (['J', 'E', '-'] ++ (natToDigitList year ++ (['-'] ++ pd))) =
      (['J', 'E', '-'] ++ natToDigitList year) ++ (['-'] ++ pd) by
        simp [List.append_assoc]]
    rw [List.drop_left' (by simp [hyl])]
    rfl
  · rw [hdata, show (['J', 'E', '-'] ++ (natToDigitList year ++ (['-'] ++ pd))) =
      ((['J', 'E', '-'] ++ natToDigitList year) ++ ['-']) ++ pd by
        simp [List.append_assoc]]
    rw [List.drop_left' (by simp [hyl])]
    exact hpdd

/-- Helper: on success, the persisted entry number is the RPC result with
the `JE-${Date.now()}` fallback. -/
theorem createJournalEntry_ok_entry_number (env : Env) (s : DBState)
    (d : EntryData) (e : EntryRow)
    (h : (createJournalEntry env s d).1 = .ok e) :
    e.entry_number = env.rpcResult.getD ("JE-" ++ natStr env.nowMs) := by
  cases huid : env.user with
  | none => simp [createJournalEntry, huid] at h
  | some uid =>
    simp only [createJournalEntry, huid] at h
    split_ifs at h with h1 h2 h3
    dsimp only at h
    injection h with h
    subst h
    rfl

/-- Environment where the numbering RPC returns no value (its error is
discarded by the source) and `Date.now()` is a concrete timestamp. -/
def envRpcFail : Env :=
  ⟨some 7, none, 1, 1733000000000, true, "header failed", true,
    "line insert failed"⟩

/-- Claim C10 (corrected), counterexample: when the numbering RPC returns
no value, a successful run persists the fallback entry number
`"JE-" + Date.now()` — here `JE-1733000000000` — which does not satisfy
the `JE-YYYY-NNNNNN` wire format. -/
theorem createJournalEntry_fallback_format_cex :
    (createJournalEntry envRpcFail stateEmpty dataBalanced).1 =
      .ok ⟨1, 1, "JE-1733000000000", "2025-01-02", "donation", 100, 100,
        "draft", 7, 1733000000000, 1733000000000⟩ ∧
    ¬ JEFormat "JE-1733000000000" := by
  constructor
  · have hstr : ("JE-" ++ natStr 1733000000000) = "JE-1733000000000" := by
      decide
    norm_num [createJournalEntry, envRpcFail, dataBalanced, stateEmpty,
      totalDebits, totalCredits, debitOf, creditOf, hstr]
  · decide

/-- Claim C10 (amended): every journal entry persisted by a successful
`createJournalEntry` run in which the numbering service returned a value —
the value computed by the max-based `generate_entry_number` for a
four-digit current year — has an entry number of the wire format
`JE-YYYY-NNNNNN`; on the path where the numbering service returns no
value, the persisted number is the fallback `"JE-" + Date.now()`, which
does not obey the format (see the counterexample). -/
theorem createJournalEntry_entry_number_format (db : List JERow) (env : Env)
    (s : DBState) (d : EntryData) (e : EntryRow) (fid year : Nat)
    (h1 : 1000 ≤ year) (h2 : year ≤ 9999)
    (hrpc : env.rpcResult = some (generate_entry_number_max db fid year))
    (hok : (createJournalEntry env s d).1 = .ok e) :
    JEFormat e.entry_number := by
  rw [createJournalEntry_ok_entry_number env s d e hok, hrpc,
    Option.getD_some]
  exact generate_entry_number_max_format db fid year h1 h2

/-- Witness for the amended C10 theorem at a concrete successful run. -/
theorem createJournalEntry_entry_number_format_witness :
    JEFormat "JE-2025-000001" :=
  createJournalEntry_entry_number_format [] envAllOk stateEmpty dataBalanced
    ⟨1, 1, "JE-2025-000001", "2025-01-02", "donation", 100, 100, "draft", 7,
      1000, 1000⟩ 1 2025 (by decide) (by decide) (by decide)
    (by
      norm_num [createJournalEntry, envAllOk, dataBalanced, stateEmpty,
        totalDebits, totalCredits, debitOf, creditOf])

/-! ## Chart-of-Accounts Bootstrap (create_default_accounts)

The 35 standard accounts of 20250829154929_broad_fog.sql, inserted with
`ON CONFLICT (foundation_id, account_number) DO NOTHING` (modelled as a
row-by-row fold that skips a row whose key is already present, which is how
PostgreSQL arbiters conflicts within a single multi-row INSERT as well). -/

/-- The (account_number, account_name, account_type) triples of the
migration's VALUES list, in order. -/
def defaultAccountSpecs : List (String × String × String) :=
  [("1010", "Cash", "asset"),
   ("1020", "Bank Account - Operating", "asset"),
   ("1030", "Bank Account - Savings", "asset"),
   ("1510", "Accounts Receivable", "asset"),
   ("1630", "Prepaid Expenses", "asset"),
   ("1810", "Office Equipment", "asset"),
   ("1820", "Computer Equipment", "asset"),
   ("2010", "Accounts Payable", "liability"),
   ("2020", "Accrued Expenses", "liability"),
   ("2030", "VAT Payable", "liability"),
   ("2040", "Payroll Taxes Payable", "liability"),
   ("3010", "Foundation Capital", "equity"),
   ("3020", "Retained Earnings", "equity"),
   ("3030", "Current Year Earnings", "equity"),
   ("4010", "Donation Revenue", "revenue"),
   ("4020", "Grant Revenue", "revenue"),
   ("4030", "Investment Income", "revenue"),
   ("4040", "Interest Income", "revenue"),
   ("4050", "Other Income", "revenue"),
   ("5010", "Office Supplies", "expense"),
   ("5020", "Travel Expenses", "expense"),
   ("5030", "Meals and Entertainment", "expense"),
   ("5040", "Utilities", "expense"),
   ("5050", "Professional Services", "expense"),
   ("5060", "Marketing and Advertising", "expense"),
   ("5070", "Insurance", "expense"),
   ("5080", "Rent", "expense"),
   ("6010", "Salaries and Wages", "expense"),
   ("6020", "Payroll Taxes", "expense"),
   ("6030", "Employee Benefits", "expense"),
   ("7010", "Program Expenses", "expense"),
   ("7020", "Grant Disbursements", "expense"),
   ("8010", "Depreciation Expense", "expense"),
   ("8020", "Interest Expense", "expense"),
   ("8030", "Bank Fees", "expense")]

/-- The rows inserted for a foundation: currency SEK, balance 0. -/
def defaultAccounts (fid : Nat) : List AccountRow :=
  defaultAccountSpecs.map fun spec => ⟨fid, spec.1, spec.2.1, spec.2.2, "SEK", 0⟩

/-- The standard account numbers. -/
def standardAccountNumbers : List String :=
  defaultAccountSpecs.map fun spec => spec.1

/-- Presence of a (foundation_id, account_number) key in the accounts
table (the unique key of the ON CONFLICT clause). -/
def keyMem (s : List AccountRow) (fid : Nat) (num : String) : Prop :=
  ∃ x ∈ s, x.foundation_id = fid ∧ x.account_number = num

instance (s : List AccountRow) (fid : Nat) (num : String) :
    Decidable (keyMem s fid num) := by
  unfold keyMem
  infer_instance

/-- Insertion of one row under `ON CONFLICT DO NOTHING`. -/
def insertAccountRow (s : List AccountRow) (r : AccountRow) : List AccountRow :=
  if keyMem s r.foundation_id r.account_number then s else s ++ [r]

/-- `create_default_accounts`
(supabase/migrations/20250829154929_broad_fog.sql, lines 14-64). -/
def create_default_accounts (fid : Nat) (s : List AccountRow) :
    List AccountRow :=
  (defaultAccounts fid).foldl insertAccountRow s

/-- Number of rows with the given key. -/
def countFor (s : List AccountRow) (fid : Nat) (num : String) : Nat :=
  (s.filter fun r => r.foundation_id == fid && r.account_number == num).length

/-- Helper: insertion preserves key presence. -/
theorem keyMem_insert (s : List AccountRow) (r : AccountRow) (fid : Nat)
    (num : String) (h : keyMem s fid num) :
    keyMem (insertAccountRow s r) fid num := by
  unfold insertAccountRow
  split
  · exact h
  · obtain ⟨x, hx, hk⟩ := h
    exact ⟨x, List.mem_append_left _ hx, hk⟩

/-- Helper: after insertion the inserted row's key is present. -/
theorem keyMem_insert_self (s : List AccountRow) (r : AccountRow) :
    keyMem (insertAccountRow s r) r.foundation_id r.account_number := by
  unfold insertAccountRow
  split
  · next h => exact h
  · exact ⟨r, List.mem_append_right _ (by simp), rfl, rfl⟩

/-- Helper: a fold of insertions preserves key presence. -/
theorem keyMem_foldl (batch : List AccountRow) :
    ∀ (s : List AccountRow) (fid : Nat) (num : String), keyMem s fid num →
      keyMem (batch.foldl insertAccountRow s) fid num := by
  induction batch with
  | nil => intro s fid num h; exact h
  | cons r t ih => intro s fid num h; exact ih _ _ _ (keyMem_insert s r fid num h)

/-- Helper: a fold of insertions makes every batch key present. -/
theorem keyMem_foldl_mem (batch : List AccountRow) :
    ∀ (s : List AccountRow) (r : AccountRow), r ∈ batch →
      keyMem (batch.foldl insertAccountRow s) r.foundation_id r.account_number := by
  induction batch with
  | nil => intro _ r h; cases h
  | cons x t ih =>
    intro s r hr
    rcases List.mem_cons.mp hr with rfl | hr
    · exact keyMem_foldl t _ _ _ (keyMem_insert_self s r)
    · exact ih _ r hr

/-- Helper: inserting an already-present key is a no-op. -/
theorem insert_of_keyMem (s : List AccountRow) (r : AccountRow)
    (h : keyMem s r.foundation_id r.account_number) :
    insertAccountRow s r = s := by
  unfold insertAccountRow
  rw [if_pos h]

/-- Helper: a fold whose batch keys are all present is the identity. -/
theorem foldl_insert_all_present (batch : List AccountRow) :
    ∀ s : List AccountRow,
      (∀ r ∈ batch, keyMem s r.foundation_id r.account_number) →
      batch.foldl insertAccountRow s = s := by
  induction batch with
  | nil => intro s _; rfl
  | cons r t ih =>
    intro s h
    simp only [List.foldl_cons]
    rw [insert_of_keyMem s r (h r (List.mem_cons_self r t))]
    exact ih s fun x hx => h x (List.mem_cons_of_mem r hx)

/-- Helper: the bootstrap is idempotent as a state transformer. -/
theorem create_default_accounts_idem (fid : Nat) (s : List AccountRow) :
    create_default_accounts fid (create_default_accounts fid s) =
      create_default_accounts fid s := by
  unfold create_default_accounts
  apply foldl_insert_all_present
  intro r hr
  exact keyMem_foldl_mem _ _ r hr

/-- Helper: a key is present exactly when its row count is positive. -/
theorem countFor_pos_iff (s : List AccountRow) (fid : Nat) (num : String) :
    0 < countFor s fid num ↔ keyMem s fid num := by
  unfold countFor keyMem
  rw [List.length_pos]
  constructor
  · intro h
    obtain ⟨x, hx⟩ := List.exists_mem_of_ne_nil _ h
    rw [List.mem_filter] at hx
    obtain ⟨hx1, hx2⟩ := hx
    simp only [Bool.and_eq_true, beq_iff_eq] at hx2
    exact ⟨x, hx1, hx2⟩
  · rintro ⟨x, hx, h1, h2⟩
    intro hnil
    have hmem : x ∈ s.filter
        (fun r => r.foundation_id == fid && r.account_number == num) :=
      List.mem_filter.mpr ⟨hx, by simp [h1, h2]⟩
    rw [hnil] at hmem
    cases hmem

/-- Helper: effect of one insertion on a key's row count. -/
theorem countFor_insert (s : List AccountRow) (r : AccountRow) (fid : Nat)
    (num : String) :
    countFor (insertAccountRow s r) fid num =
      if r.foundation_id = fid ∧ r.account_number = num ∧
          countFor s fid num = 0
      then 1 else countFor s fid num := by
  by_cases hm : r.foundation_id = fid ∧ r.account_number = num
  · obtain ⟨rfl, rfl⟩ := hm
    by_cases h0 : countFor s r.foundation_id r.account_number = 0
    · rw [if_pos ⟨rfl, rfl, h0⟩]
      have hk : ¬ keyMem s r.foundation_id r.account_number := by
        intro hkk
        have := (countFor_pos_iff s r.foundation_id r.account_number).mpr hkk
        omega
      unfold insertAccountRow
      rw [if_neg hk]
      unfold countFor at h0 ⊢
      rw [List.filter_append, List.length_append, h0]
      simp
    · rw [if_neg (by tauto)]
      have hk : keyMem s r.foundation_id r.account_number :=
        (countFor_pos_iff s r.foundation_id r.account_number).mp (by omega)
      unfold insertAccountRow
      rw [if_pos hk]
  · rw [if_neg (by tauto)]
    unfold insertAccountRow
    split
    · rfl
    · unfold countFor
      rw [List.filter_append, List.length_append]
      have hnil : List.filter
          (fun x => x.foundation_id == fid && x.account_number == num) [r] = [] := by
        apply List.filter_eq_nil_iff.mpr
        intro a ha
        simp only [List.mem_singleton] at ha
        subst ha
        simp only [Bool.and_eq_true, beq_iff_eq]
        tauto
      rw [hnil]
      simp

/-- Helper: once a key's count is positive, a fold of insertions leaves it
unchanged. -/
theorem countFor_foldl_stable (batch : List AccountRow) :
    ∀ (s : List AccountRow) (fid : Nat) (num : String),
      0 < countFor s fid num →
      countFor (batch.foldl insertAccountRow s) fid num = countFor s fid num := by
  induction batch with
  | nil => intro s _ _ _; rfl
  | cons r t ih =>
    intro s fid num h
    simp only [List.foldl_cons]
    have hins : countFor (insertAccountRow s r) fid num = countFor s fid num := by
      rw [countFor_insert, if_neg]
      rintro ⟨_, _, h0⟩
      omega
    calc countFor (t.foldl insertAccountRow (insertAccountRow s r)) fid num
        = countFor (insertAccountRow s r) fid num :=
          ih _ _ _ (by rw [hins]; exact h)
      _ = countFor s fid num := hins

/-- Helper: a fold of insertions brings an absent batch key to exactly one
row. -/
theorem countFor_foldl_one (batch : List AccountRow) :
    ∀ (s : List AccountRow) (fid : Nat) (num : String),
      countFor s fid num = 0 →
      (∃ r ∈ batch, r.foundation_id = fid ∧ r.account_number = num) →
      countFor (batch.foldl insertAccountRow s) fid num = 1 := by
  induction batch with
  | nil =>
    rintro s fid num _ ⟨r, hr, _⟩
    cases hr
  | cons x t ih =>
    rintro s fid num h0 ⟨r, hr, h1, h2⟩
    simp only [List.foldl_cons]
    by_cases hx : x.foundation_id = fid ∧ x.account_number = num
    · have hins : countFor (insertAccountRow s x) fid num = 1 := by
        rw [countFor_insert, if_pos ⟨hx.1, hx.2, h0⟩]
      rw [countFor_foldl_stable t _ _ _ (by rw [hins]; omega), hins]
    · have hins : countFor (insertAccountRow s x) fid num = countFor s fid num := by
        rw [countFor_insert, if_neg (by tauto)]
      rcases List.mem_cons.mp hr with rfl | hr
      · exact absurd ⟨h1, h2⟩ hx
      · exact ih _ _ _ (by rw [hins]; exact h0) ⟨r, hr, h1, h2⟩

/-- Helper: every row of a fold result comes from the initial state or the
batch. -/
theorem mem_foldl_insert (batch : List AccountRow) :
    ∀ (s : List AccountRow) (x : AccountRow),
      x ∈ batch.foldl insertAccountRow s → x ∈ s ∨ x ∈ batch := by
  induction batch with
  | nil => intro s x h; exact Or.inl h
  | cons r t ih =>
    intro s x h
    rcases ih _ x h with h | h
    · unfold insertAccountRow at h
      split at h
      · exact Or.inl h
      · rcases List.mem_append.mp h with h | h
        · exact Or.inl h
        · simp only [List.mem_singleton] at h
          subst h
          exact Or.inr (List.mem_cons_self x t)
    · exact Or.inr (List.mem_cons_of_mem r h)

/-- Helper: applying the bootstrap once or more is the same as applying it
once. -/
theorem create_default_accounts_iterate (fid : Nat) (s : List AccountRow)
    (n : Nat) :
    (create_default_accounts fid)^[n + 1] s = create_default_accounts fid s := by
  induction n with
  | zero => rfl
  | succ n ih =>
    rw [Function.iterate_succ_apply', ih, create_default_accounts_idem]

/-- Claim C9 (confirmed): invoking `create_default_accounts` any positive
number of times on a foundation with no pre-existing rows yields exactly
one accounts row per standard account_number, every row of that foundation
has balance 0, and every invocation after the first changes nothing (the
model is a total function, so repeated invocations do not error — the SQL
ON CONFLICT DO NOTHING clause absorbs the duplicate-key conflicts). -/
theorem create_default_accounts_idempotent (fid : Nat) (s : List AccountRow)
    (hno : ∀ r ∈ s, r.foundation_id ≠ fid) :
    (∀ (n : Nat) (num : String), num ∈ standardAccountNumbers →
      countFor ((create_default_accounts fid)^[n + 1] s) fid num = 1) ∧
    (∀ (n : Nat), ∀ r ∈ (create_default_accounts fid)^[n + 1] s,
      r.foundation_id = fid → r.balance = 0) ∧
    (∀ (n : Nat), (create_default_accounts fid)^[n + 1] s =
      create_default_accounts fid s) := by
  have hcount0 : ∀ num : String, countFor s fid num = 0 := by
    intro num
    unfold countFor
    rw [List.filter_eq_nil_iff.mpr, List.length_nil]
    intro a ha
    simp only [Bool.and_eq_true, beq_iff_eq]
    rintro ⟨h1, _⟩
    exact hno a ha h1
  refine ⟨?_, ?_, fun n => create_default_accounts_iterate fid s n⟩
  · intro n num hnum
    rw [create_default_accounts_iterate]
    obtain ⟨spec, hspec, rfl⟩ := List.mem_map.mp hnum
    apply countFor_foldl_one
    · exact hcount0 _
    · exact ⟨⟨fid, spec.1, spec.2.1, spec.2.2, "SEK", 0⟩,
        List.mem_map.mpr ⟨spec, hspec, rfl⟩, rfl, rfl⟩
  · intro n r hr hfid
    rw [create_default_accounts_iterate] at hr
    rcases mem_foldl_insert _ _ _ hr with h | h
    · exact absurd hfid (hno r h)
    · obtain ⟨spec, _, rfl⟩ := List.mem_map.mp h
      rfl

/-- Witness for the C9 theorem: bootstrapping an empty state twice yields
one row for account 1010 and the same state as one bootstrap. -/
theorem create_default_accounts_idempotent_witness :
    countFor ((create_default_accounts 1)^[2] []) 1 "1010" = 1 ∧
    (create_default_accounts 1)^[2] [] = create_default_accounts 1 [] :=
  ⟨(create_default_accounts_idempotent 1 [] (by simp)).1 1 "1010" (by decide),
   (create_default_accounts_idempotent 1 [] (by simp)).2.2 1⟩
